import Mathlib

/-!
# Verification of the pip core: option resolution, command dispatch, freeze reconstruction

A shallow embedding of `pip/baseparser.py`, `pip/basecommand.py` and
`pip/__init__.py` (the `FrozenRequirement` reconstructor), together with
theorems settling the specification's claims about them.

Python values flowing through the option machinery are modelled by `Val`
(`None` is `Val.vnone`); Python dicts keyed by strings are modelled as
association lists built exclusively through `dictSet`, which mirrors
`d[k] = v` (overwrite-or-append, insertion order preserved).
-/

set_option autoImplicit false

namespace Pip

/-- A Python value as it appears in the option-resolution pipeline:
a string, an int (also the result of `strtobool` and of counters),
a list of strings (`append`-type values), or `None`. -/
inductive Val where
  | vstr (s : String)
  | vint (n : Int)
  | vlist (l : List String)
  | vnone
deriving Repr, DecidableEq, Inhabited

/-- Python truthiness (`bool(v)`) restricted to the values of `Val`. -/
def truthy : Val → Bool
  | .vstr s => !(s = "")
  | .vint n => !(n = 0)
  | .vlist l => !l.isEmpty
  | .vnone => false

/-- The optparse actions used by this program. -/
inductive Action where
  | store
  | append
  | storeTrue
  | storeFalse
  | count
deriving Repr, DecidableEq

/-- Whether an optparse action consumes a command-line argument
(optparse: `store` and `append` do; the flag/counter actions do not). -/
def takesValue : Action → Bool
  | .store => true
  | .append => true
  | _ => false

section Dict

variable {α : Type}

/-- `d.get(k)` on a Python dict modelled as an association list
(first binding wins; `dictSet` keeps keys unique). -/
def dictGet : List (String × α) → String → Option α
  | [], _ => none
  | p :: t, k => if p.1 = k then some p.2 else dictGet t k

/-- `d[k] = v` on a Python dict: overwrite the binding if the key is
present, otherwise append it (insertion order preserved). -/
def dictSet : List (String × α) → String → α → List (String × α)
  | [], k, v => [(k, v)]
  | p :: t, k, v => if p.1 = k then (k, v) :: t else p :: dictSet t k v

/-- `d.update(es)` on a Python dict: fold `d[k] = v` over the entries. -/
def dictUpdate (d : List (String × α)) (es : List (String × α)) : List (String × α) :=
  es.foldl (fun d p => dictSet d p.1 p.2) d

@[simp]
theorem dictGet_nil (k : String) : dictGet ([] : List (String × α)) k = none := rfl

@[simp]
theorem dictGet_dictSet_same (d : List (String × α)) (k : String) (v : α) :
    dictGet (dictSet d k v) k = some v := by
  induction d with
  | nil => simp [dictSet, dictGet]
  | cons p t ih =>
    by_cases h : p.1 = k
    · simp [dictSet, dictGet, h]
    · simp [dictSet, dictGet, h, ih]

theorem dictGet_dictSet_other (d : List (String × α)) (k k' : String) (v : α)
    (h : k ≠ k') : dictGet (dictSet d k v) k' = dictGet d k' := by
  induction d with
  | nil => simp [dictSet, dictGet, h]
  | cons p t ih =>
    by_cases hp : p.1 = k
    · subst hp
      simp only [dictSet, if_pos rfl, dictGet, if_neg h]
    · simp only [dictSet, if_neg hp, dictGet]
      by_cases hp' : p.1 = k'
      · rw [if_pos hp', if_pos hp']
      · rw [if_neg hp', if_neg hp', ih]

theorem dictGet_eq_none_of_not_mem (d : List (String × α)) (k : String)
    (h : k ∉ d.map Prod.fst) : dictGet d k = none := by
  induction d with
  | nil => rfl
  | cons p t ih =>
    simp only [List.map_cons, List.mem_cons, not_or] at h
    have hne : ¬ p.1 = k := fun he => h.1 he.symm
    simp only [dictGet, if_neg hne]
    exact ih h.2

/-- Reading an updated dict when the update's keys are distinct:
an updated key returns the update's value, any other key is unchanged. -/
theorem dictGet_dictUpdate (d : List (String × α)) (es : List (String × α)) (k : String)
    (hnd : (es.map Prod.fst).Nodup) :
    dictGet (dictUpdate d es) k =
      match dictGet es k with
      | some v => some v
      | none => dictGet d k := by
  induction es generalizing d with
  | nil => simp [dictUpdate, dictGet]
  | cons p t ih =>
    simp only [List.map_cons, List.nodup_cons] at hnd
    simp only [dictUpdate, List.foldl_cons]
    have ht := ih (dictSet d p.1 p.2) hnd.2
    simp only [dictUpdate] at ht
    rw [ht]
    by_cases h : p.1 = k
    · subst h
      rw [dictGet_eq_none_of_not_mem t p.1 hnd.1]
      simp [dictGet, dictGet_dictSet_same]
    · rw [dictGet_dictSet_other _ _ _ _ h]
      simp [dictGet, h]

end Dict

/-! ## Python string helpers

The Python string methods the source uses (`str.replace`, `str.lower`,
`str.startswith`, `str.split()` with no argument) are modelled directly on
the character lists of Lean strings, so that theorems can compute. -/

/-- Python `str.replace` on character lists: replace every
non-overlapping occurrence of `pat` by `rep`, scanning left to right.
(All patterns used by the source are nonempty; for an empty pattern this
model leaves the string unchanged.)  The `Nat` argument is structural
fuel; each step consumes at least one character, so fuel equal to the
list's length never runs out. -/
def replaceFrom (pat rep : List Char) : Nat → List Char → List Char
  | _, [] => []
  | 0, l => l
  | fuel + 1, c :: rest =>
    if pat.isPrefixOf (c :: rest) ∧ pat ≠ [] then
      rep ++ replaceFrom pat rep fuel (rest.drop (pat.length - 1))
    else
      c :: replaceFrom pat rep fuel rest

/-- Python `s.replace(pat, rep)`. -/
def pyReplace (s pat rep : String) : String :=
  ⟨replaceFrom pat.data rep.data s.data.length s.data⟩

/-- Python `str.lower` on the ASCII range (all keys lowered by the source
are ASCII environment-variable names). -/
def charLower (c : Char) : Char :=
  if 'A' ≤ c ∧ c ≤ 'Z' then Char.ofNat (c.toNat + 32) else c

/-- Python `s.lower()`. -/
def pyLower (s : String) : String := ⟨s.data.map charLower⟩

/-- Python `s.startswith(p)`. -/
def pyStartsWith (s p : String) : Bool := p.data.isPrefixOf s.data

@[simp]
theorem empty_string_append (s : String) : "" ++ s = s := rfl

/-- Python whitespace as used by `str.split()` with no argument. -/
def isPySpace (c : Char) : Bool :=
  (c == ' ') || (c == '\t') || (c == '\n') || (c == '\r') || (c == '\x0b') || (c == '\x0c')

/-- Python `s.split()` (no argument): split on whitespace runs and drop
empty fields. -/
def pySplit (s : String) : List String :=
  ((List.splitOnP isPySpace s.data).map (fun l => (⟨l⟩ : String))).filter (fun x => !(x = ""))

/-! ## `pip/baseparser.py`: `ConfigOptionParser`

An optparse option (`optparse.Option`) as used by this program.  `dest` is
the destination attribute name (Python `None` is modelled as `""`, the two
being indistinguishable to the source's `if not option.dest` test);
`checker` is the optparse `TYPE_CHECKER` entry for the option's type
(Python stdlib, outside this repository): `none` for untyped and
`type='str'` options, for which optparse applies no conversion, and an
abstract conversion returning `none` on `OptionValueError` otherwise
(the only typed-checker option here is `--timeout`, type `float`).
`nargs` and `container` are mutable optparse fields; optparse's
`_check_nargs` guarantees `nargs = some 1` for value-taking options.
`default` is the declared default (`none` is optparse's `NO_DEFAULT`). -/
structure Opt where
  optStrings : List String
  dest : String
  action : Action
  checker : Option (Val → Option Val) := none
  nargs : Option Nat := some 1
  container : Option Nat := none
  default : Option Val := none

/-- optparse `Option.check_value` under `nargs = 1`: apply the type
checker when there is one, otherwise return the value unchanged;
`none` models an `OptionValueError`. -/
def check_value (o : Opt) (v : Val) : Option Val :=
  match o.checker with
  | none => some v
  | some f => f v

/-- A `ConfigOptionParser` as seen by the pure resolution pipeline: its
section `name`, the flattened list of its options (optparse's
`_get_all_options`, covering the parser's own `option_list` and every
attached group's), and the optparse `defaults` dict (built-in defaults
registered by `add_option`). -/
structure Parser where
  name : String
  options : List Opt
  defaults : List (String × Val)

/-- optparse's `get_option` (lookup in `_short_opt`/`_long_opt`): the
option registered under the given option string. -/
def get_option (p : Parser) (k : String) : Option Opt :=
  p.options.find? (fun o => o.optStrings.contains k)

/-- `ConfigOptionParser.normalize_keys`: dash/underscore equivalence and
`--` long-option prefixing, collected into a fresh dict. -/
def normKey (k : String) : String :=
  let k := pyReplace k "_" "-"
  if pyStartsWith k "--" then k else "--" ++ k

/-- `ConfigOptionParser.normalize_keys` on a list of `(key, value)` items. -/
def normalize_keys (items : List (String × String)) : List (String × String) :=
  items.foldl (fun acc p => dictSet acc (normKey p.1) p.2) []

/-- `ConfigOptionParser.get_environ_vars`: keep the environment entries
whose name starts with `PIP_`, strip the prefix (Python
`key.replace('PIP_', '')`, which removes every occurrence) and lowercase
the rest. -/
def get_environ_vars (environ : List (String × String)) : List (String × String) :=
  (environ.filter (fun p => pyStartsWith p.1 "PIP_")).map
    (fun p => (pyLower (pyReplace p.1 "PIP_" ""), p.2))

/-- `distutils.util.strtobool` (imported by `baseparser.py`): `1` for the
true words, `0` for the false words, `ValueError` (modelled `none`)
otherwise. -/
def strtobool (s : String) : Option Int :=
  let v := pyLower s
  if v = "y" ∨ v = "yes" ∨ v = "t" ∨ v = "true" ∨ v = "on" ∨ v = "1" then some 1
  else if v = "n" ∨ v = "no" ∨ v = "f" ∨ v = "false" ∨ v = "off" ∨ v = "0" then some 0
  else none

/-- How the resolution pipeline terminates abnormally:
`valueError` is an uncaught `ValueError` escaping `strtobool`;
`configExit` is the `sys.exit(3)` issued when `option.convert_value`
raises `OptionValueError` inside `update_defaults`;
`optionValueError` is an `OptionValueError` escaping the re-check loop of
`get_default_values`. -/
inductive ResolveErr where
  | valueError
  | configExit
  | optionValueError
deriving Repr, DecidableEq

/-- The body of `update_defaults`' per-entry loop for one normalized
config entry `(key, val)`: ignore unknown keys and empty values, split
`append`-type values on whitespace, coerce flag/counter values through
`strtobool`, convert through the option's type checker, and store the
result under the option's `dest`.  (The loop also mutates the shared
`option.nargs` to `1` for non-append options; that mutation does not
affect resolved values and is modelled in the aliasing model `World`
below.) -/
def applyEntry (p : Parser) (defaults : List (String × Val)) (key val : String) :
    Except ResolveErr (List (String × Val)) :=
  match get_option p key with
  | none => .ok defaults
  | some o =>
    if val = "" then .ok defaults
    else
      let v0 : Val := if o.action = .append then .vlist (pySplit val) else .vstr val
      match (if o.action = .storeTrue ∨ o.action = .storeFalse ∨ o.action = .count then
               match strtobool val with
               | some n => Except.ok (Val.vint n)
               | none => Except.error ResolveErr.valueError
             else Except.ok v0) with
      | .error e => .error e
      | .ok v1 =>
        match check_value o v1 with
        | some v2 => .ok (dictSet defaults o.dest v2)
        | none => .error ResolveErr.configExit

/-- `ConfigOptionParser.update_defaults`: merge the `global` section, the
parser's own command section and the `PIP_*` environment variables into
one normalized dict (later sources overwrite earlier ones under the same
normalized key), then fold the per-entry loop over it.  `secs` models
`get_config_section` (it returns `[]` for a section absent from the
config files); `environ` models `os.environ.items()`. -/
def update_defaults (p : Parser) (secs : String → List (String × String))
    (environ : List (String × String)) (defaults : List (String × Val)) :
    Except ResolveErr (List (String × Val)) :=
  let config := dictUpdate (dictUpdate (dictUpdate []
      (normalize_keys (secs "global")))
      (normalize_keys (secs p.name)))
      (normalize_keys (get_environ_vars environ))
  config.foldlM (fun d pr => applyEntry p d pr.1 pr.2) defaults

/-- The body of `get_default_values`' re-check loop for one option:
when the current default under the option's dest is still a string, run
it through the option's `check_value` again and store the result. -/
def postStep (d : List (String × Val)) (o : Opt) : Except ResolveErr (List (String × Val)) :=
  match dictGet d o.dest with
  | some (.vstr s) =>
    match check_value o (.vstr s) with
    | some v => .ok (dictSet d o.dest v)
    | none => .error ResolveErr.optionValueError
  | _ => .ok d

/-- `ConfigOptionParser.get_default_values` (with optparse's
`process_default_values` true, its default): update a copy of the
built-in defaults from config files and environment, then re-run each
option's `check_value` on any default that is still a string. -/
def get_default_values (p : Parser) (secs : String → List (String × String))
    (environ : List (String × String)) : Except ResolveErr (List (String × Val)) :=
  match update_defaults p secs environ p.defaults with
  | .error e => .error e
  | .ok defaults => p.options.foldlM postStep defaults

/-- Modelled from the spec: the CLI layer.  `optparse.OptionParser.parse_args`
(Python stdlib, not part of this repository) initializes its `Values`
object from `get_default_values()` and then stores each CLI-supplied
option value over it; per the spec, the CLI argument is the
highest-precedence source.  `cli` maps each destination set on the
command line to the value the CLI supplied for it. -/
def parse_args_values (p : Parser) (secs : String → List (String × String))
    (environ : List (String × String)) (cli : List (String × Val)) :
    Except ResolveErr (List (String × Val)) :=
  match get_default_values p secs environ with
  | .error e => .error e
  | .ok d => .ok (dictUpdate d cli)

/-! ## `pip/basecommand.py`: `Command.merge_options` -/

/-- An `optparse.Values` object: attribute name to value. -/
abbrev Values := List (String × Val)

/-- `getattr(v, attr)`: `none` models an `AttributeError`. -/
def getattrV (v : Values) (attr : String) : Option Val := dictGet v attr

/-- The fixed carry-over attribute tuple of `Command.merge_options`. -/
def carryOverAttrs : List String :=
  ["log", "proxy", "require_venv", "log_explicit_levels", "log_file",
   "timeout", "default_vcs", "skip_requirements_regex", "no_input"]

/-- One step of the carry-over loop:
`val = getattr(initial_options, attr) or getattr(options, attr)` followed
by `setattr(options, attr, val)` — Python `or` keeps the first operand
when it is truthy. -/
def mergeAttr (initial options : Values) (attr : String) : Option Values :=
  match getattrV initial attr with
  | none => none
  | some vi =>
    match (if truthy vi then some vi else getattrV options attr) with
    | none => none
    | some v => some (dictSet options attr v)

/-- Python `+` on the values held by the counter attributes (`TypeError`
for anything but two ints, which cannot arise from `count` options). -/
def valAdd : Val → Val → Option Val
  | .vint a, .vint b => some (.vint (a + b))
  | _, _ => none

/-- `Command.merge_options(initial_options, options)`: carry the fixed
attribute tuple over from the global options, then add the global `quiet`
and `verbose` counters onto the command's. -/
def merge_options (initial options : Values) : Option Values :=
  match carryOverAttrs.foldlM (fun acc a => mergeAttr initial acc a) options with
  | none => none
  | some opts =>
    match getattrV opts "quiet" with
    | none => none
    | some q =>
      match getattrV initial "quiet" with
      | none => none
      | some qi =>
        match valAdd q qi with
        | none => none
        | some q' =>
          match getattrV (dictSet opts "quiet" q') "verbose" with
          | none => none
          | some v =>
            match getattrV initial "verbose" with
            | none => none
            | some vi =>
              match valAdd v vi with
              | none => none
              | some v' => some (dictSet (dictSet opts "quiet" q') "verbose" v')

/-- Modelled from the spec: optparse's `count` action (Python stdlib, not
part of this repository) increments the destination once per occurrence
of the flag, so the parsed counter is the number of occurrences of the
flag's spellings among the arguments. -/
def countFlag (short long : String) (args : List String) : Nat :=
  (args.filter (fun a => a = short ∨ a = long)).length

/-! ## `pip/basecommand.py`: `Command.main`

Exit codes: modelled from the spec — `pip.status_codes` is imported by
`basecommand.py` but is not among the given sources; the spec fixes
`SUCCESS(0)` and pairwise-distinct nonzero values for the others. -/

def SUCCESS : Int := 0

def ERROR : Int := 1

def UNKNOWN_ERROR : Int := 2

def VIRTUALENV_NOT_FOUND : Int := 3

/-- How one run of the command body (`self.run(options, args)`) ends.
The exception alternatives name the classes of the `except` clauses in
`Command.main`; `pip.exceptions` is not among the given sources, and the
classes are modelled (from the spec's error taxonomy) as disjoint
alternatives, none a subclass of another.  `ret none` is a body that
returns `None` (or any non-`int`, which `isinstance(status, int)`
treats the same way); `ret (some n)` returns the integer `n`. -/
inductive RunOutcome where
  | ret (status : Option Int)
  | installationError
  | uninstallationError
  | badCommand
  | commandError
  | keyboardInterrupt
  | otherExc
deriving Repr, DecidableEq

/-- The observable outcome of `Command.main`: either the `sys.exit`
abort of the virtualenv precondition check (before the `try` block, so
no persistence can have been flagged), or the `exit` value returned at
the end together with the final `store_log` flag. -/
inductive MainResult where
  | aborted (code : Int)
  | finished (exit : Int) (storeLog : Bool)
deriving Repr, DecidableEq

/-- The control skeleton of `Command.main` after option merging: the
`require_venv` precondition check (`sys.exit(VIRTUALENV_NOT_FOUND)` when
`VIRTUAL_ENV` is unset or empty), then the `try`/`except` pipeline
mapping the body's outcome to `exit` and `store_log`.  Logging-consumer
setup, the optional `--log` sink and the socket/proxy configuration
touch no claimed observable and are not modelled here. -/
def commandMain (require_venv : Val) (virtualEnvVar : Option String)
    (outcome : RunOutcome) : MainResult :=
  if truthy require_venv ∧ virtualEnvVar.getD "" = "" then
    .aborted VIRTUALENV_NOT_FOUND
  else
    match outcome with
    | .ret s => .finished (match s with | some n => n | none => SUCCESS) false
    | .installationError => .finished ERROR true
    | .uninstallationError => .finished ERROR true
    | .badCommand => .finished ERROR true
    | .commandError => .finished ERROR false
    | .keyboardInterrupt => .finished ERROR true
    | .otherExc => .finished UNKNOWN_ERROR true

/-- Whether a run of `Command.main` triggers debug-log persistence (the
`if store_log:` block). -/
def triggersPersistence : MainResult → Bool
  | .aborted _ => false
  | .finished _ s => s

/-! ## `pip/basecommand.py`: `open_logfile` and the Done-phase store

The filesystem is modelled as path → content plus a set of existing
directories; the model works with the path as configured
(`os.path.expanduser`/`abspath` are process-state-dependent stdlib
normalizations applied before any filesystem effect, so the claims are
stated at the resulting path). -/

structure FS where
  files : List (String × String)
  dirs : List String
deriving Repr, DecidableEq

/-- The two open modes the source uses: `'w'` and `'a'`. -/
inductive FileMode where
  | write
  | append
deriving Repr, DecidableEq

/-- One observable step of the persistence code, in execution order:
a user-facing `logger.fatal` report, `os.makedirs`, `open`, or a
`write` on the opened file. -/
inductive LogAction where
  | report (msg : String)
  | makedirs (dir : String)
  | openFile (path : String) (mode : FileMode)
  | writeData (path : String) (data : String)
deriving Repr, DecidableEq

/-- `posixpath.dirname`: everything up to the last `/`, with trailing
slashes stripped unless the head is all slashes. -/
def dirname (p : String) : String :=
  let cs := p.data
  let i := cs.length - (cs.reverse.takeWhile (fun c => !(c == '/'))).length
  let head := cs.take i
  let head :=
    if head ≠ [] ∧ head.any (fun c => !(c == '/')) then
      (head.reverse.dropWhile (fun c => c == '/')).reverse
    else head
  ⟨head⟩

def fsExistsFile (fs : FS) (path : String) : Bool := (dictGet fs.files path).isSome

def fsExistsDir (fs : FS) (d : String) : Bool := fs.dirs.contains d

/-- The filesystem effect of one `LogAction`: `open` in `'w'` mode
truncates (or creates empty); in `'a'` mode it creates the file only
when missing; a write appends to the open file's current content. -/
def applyAction (fs : FS) : LogAction → FS
  | .report _ => fs
  | .makedirs d => { fs with dirs := d :: fs.dirs }
  | .openFile path .write => { fs with files := dictSet fs.files path "" }
  | .openFile path .append =>
    if fsExistsFile fs path then fs else { fs with files := dictSet fs.files path "" }
  | .writeData path data =>
    { fs with files :=
        match dictGet fs.files path with
        | some c => dictSet fs.files path (c ++ data)
        | none => dictSet fs.files path data }

/-- The separator line `'%s\n' % ('-'*60)` written by `open_logfile`. -/
def sepLine : String := String.mk (List.replicate 60 '-') ++ "\n"

/-- The timestamp banner `'%s run on %s\n' % (sys.argv[0], time.strftime('%c'))`;
`argv0` and `timestr` stand for those two process inputs. -/
def banner (argv0 timestr : String) : String := argv0 ++ " run on " ++ timestr ++ "\n"

/-- `open_logfile(filename, mode)`: create the parent directory when
missing, record whether the file already exists, open it in the given
mode, and when it pre-existed write the separator line and the
timestamp banner.  Returns the resulting filesystem and the ordered
action trace. -/
def open_logfile (fs : FS) (filename : String) (mode : FileMode)
    (argv0 timestr : String) : FS × List LogAction :=
  let dir := dirname filename
  let fs1 := if fsExistsDir fs dir then fs else applyAction fs (.makedirs dir)
  let acts1 : List LogAction := if fsExistsDir fs dir then [] else [.makedirs dir]
  let ex := fsExistsFile fs1 filename
  let fs2 := applyAction fs1 (.openFile filename mode)
  let acts2 := acts1 ++ [LogAction.openFile filename mode]
  if ex then
    (applyAction (applyAction fs2 (.writeData filename sepLine))
       (.writeData filename (banner argv0 timestr)),
     acts2 ++ [.writeData filename sepLine, .writeData filename (banner argv0 timestr)])
  else (fs2, acts2)

/-- The `if store_log:` block at the end of `Command.main`: report the
path to the user, then `open_logfile(log_fn, 'w')` and write the joined
debug log.  Returns the resulting filesystem and the ordered action
trace (the report comes first). -/
def storeCompleteLog (fs : FS) (log_fn : String) (complete_log : List String)
    (argv0 timestr : String) : FS × List LogAction :=
  let text := String.intercalate "\n" complete_log
  let r := open_logfile fs log_fn .write argv0 timestr
  (applyAction r.1 (.writeData log_fn text),
   LogAction.report ("Storing complete log in " ++ log_fn) :: r.2 ++ [.writeData log_fn text])

/-! ## `pip/__init__.py`: `FrozenRequirement` -/

/-- The `pkg_resources.Requirement` object returned by
`dist.as_requirement()` as the source consumes it: its string rendering
and its `specs` list of `(comparison, version)` pairs.  `pkg_resources`
is an external collaborator; the spec states the plain pin it yields is
`name==version`. -/
structure Requirement where
  str : String
  specs : List (String × String)
deriving Repr, DecidableEq

/-- The installed-distribution metadata the reconstructor consumes
(spec §6: project name, install location, version specifiers, egg
name). -/
structure Dist where
  projectName : String
  location : String
  eggName : String
  asRequirement : Requirement
deriving Repr, DecidableEq

/-- The legacy (`svn`) backend interface: `get_location(dist, dependency_links)`. -/
structure SvnBackend where
  getLocation : Dist → List String → Option String

/-- The `pip.vcs` registry interface the reconstructor calls
(`vcs.get_backend_name`, `get_src_requirement`, `vcs.get_backend`);
spec §6's VCS collaborator interface. -/
structure VcsRegistry where
  getBackendName : String → Option String
  getSrcRequirement : Dist → String → Bool → Option String
  getBackend : String → Option SvnBackend

/-- `FrozenRequirement._rev_re`, `re.compile(r'-r(\d+)$')`: the captured
digits when the version ends in `-r<digits>`. -/
def rev_re_search (s : String) : Option String :=
  let rcs := s.data.reverse
  let ds := rcs.takeWhile Char.isDigit
  if ds = [] then none
  else
    match rcs.drop ds.length with
    | 'r' :: '-' :: _ => some ⟨ds.reverse⟩
    | _ => none

/-- `FrozenRequirement._date_re`, `re.compile(r'-(20\d\d\d\d\d\d)$')`:
the captured `20`-prefixed eight digits when the version ends in
`-20<six digits>`. -/
def date_re_search (s : String) : Option String :=
  let cs := s.data
  if cs.length < 9 then none
  else
    match cs.drop (cs.length - 9) with
    | '-' :: '2' :: '0' :: rest =>
      if rest.all Char.isDigit then some ⟨'2' :: '0' :: rest⟩ else none
    | _ => none

/-- `FrozenRequirement.egg_name`: the distribution's egg name with a
trailing `-py<d>.<d>` interpreter tag stripped. -/
def egg_name (dist : Dist) : String :=
  let name := dist.eggName
  let cs := name.data
  match cs.reverse with
  | d2 :: '.' :: d1 :: 'y' :: 'p' :: '-' :: _ =>
    if d1.isDigit ∧ d2.isDigit then ⟨cs.take (cs.length - 6)⟩ else name
  | _ => name

/-- How `FrozenRequirement.from_dist` can fail:
`assertionError` is `assert len(specs) == 1 and specs[0][0] == '=='`
failing; `unboundLocal` is the `UnboundLocalError` raised at
`if not svn_location:` when `vcs.get_backend('svn')` returned nothing,
so `svn_location` was never assigned. -/
inductive FromDistErr where
  | assertionError
  | unboundLocal
deriving Repr, DecidableEq

/-- The revision component of the editable rewrite: the `-r` revision
digits, else the date digits in braces (`'{%s}' % date_match.group(1)`).
The `none, none` case is unreachable: the rewrite is guarded by
`if ver_match or date_match`. -/
def legacyRev : Option String → Option String → String
  | some d, _ => d
  | none, some dt => "\x7b" ++ dt ++ "\x7d"
  | none, none => ""

/-- The reconstructed record: package name, requirement string (the
source stores the `Requirement` object in the plain branches and a
string in the editable branches; both are rendered through `str()`),
editable flag and comment lines. -/
structure FrozenRequirement where
  name : String
  req : String
  editable : Bool
  comments : List String
deriving Repr, DecidableEq

/-- `FrozenRequirement.__str__`: the comment lines then the requirement
line (`-e `-prefixed when editable), joined by newlines, plus one
trailing newline. -/
def FrozenRequirement.toString (fr : FrozenRequirement) : String :=
  let req := if fr.editable then "-e " ++ fr.req else fr.req
  String.intercalate "\n" (fr.comments ++ [req]) ++ "\n"

/-- `FrozenRequirement.from_dist(dist, dependency_links, find_tags)`.
`location` is `os.path.normcase(os.path.abspath(dist.location))`; the
normalization is stdlib path canonicalization and the model works with
the normalized location carried by `dist.location` (the registry is
quantified over in every claim, so this loses nothing). -/
def FrozenRequirement.from_dist (v : VcsRegistry) (dist : Dist)
    (dependency_links : List String) (find_tags : Bool) :
    Except FromDistErr FrozenRequirement :=
  let location := dist.location
  match v.getBackendName location with
  | some _ =>
    match v.getSrcRequirement dist location find_tags with
    | some r => .ok ⟨dist.projectName, r, true, []⟩
    | none => .ok ⟨dist.projectName, dist.asRequirement.str, false,
        ["## !! Could not determine repository location"]⟩
  | none =>
    let req := dist.asRequirement
    match req.specs with
    | [(op, version)] =>
      if op = "==" then
        let ver_match := rev_re_search version
        let date_match := date_re_search version
        if ver_match.isSome ∨ date_match.isSome then
          match v.getBackend "svn" with
          | none => .error .unboundLocal
          | some svn_backend =>
            match svn_backend.getLocation dist dependency_links with
            | none => .ok ⟨dist.projectName, req.str, false,
                ["## FIXME: could not find svn URL in dependency_links for this package:"]⟩
            | some svn_location =>
              if svn_location = "" then
                .ok ⟨dist.projectName, req.str, false,
                  ["## FIXME: could not find svn URL in dependency_links for this package:"]⟩
              else
                .ok ⟨dist.projectName,
                  svn_location ++ "@" ++ legacyRev ver_match date_match ++ "#egg=" ++ egg_name dist,
                  true,
                  ["# Installing as editable to satisfy requirement " ++ req.str ++ ":"]⟩
        else .ok ⟨dist.projectName, req.str, false, []⟩
      else .error .assertionError
    | _ => .error .assertionError

/-! ## Aliasing model: `Command.__init__` and parser mutation

`Command.__init__` builds each command's `ConfigOptionParser` by adding
the very same `optparse.Option` objects held by the global parser into
fresh per-parser containers (`_copy_options` / `_copy_option_group`),
and `update_defaults` mutates both the parser's `defaults` dict and the
shared options' `nargs` field.  To settle the frame claim the object
graph is modelled explicitly: a heap of option objects indexed by
`Nat`, and parser objects holding option ids.  Group identity only
feeds the unobservable `container` back-pointer, so container ids are
collapsed to the owning parser's id. -/

def listModify {α : Type} : List α → Nat → (α → α) → List α
  | [], _, _ => []
  | a :: t, 0, f => f a :: t
  | a :: t, n+1, f => a :: listModify t n f

/-- A parser object: its section name, its own `option_list`, the
`option_list` of each attached group, and its `defaults` dict. -/
structure ParserObj where
  pname : String
  optionIds : List Nat
  groupIds : List (List Nat)
  pdefaults : List (String × Val)

/-- The object graph: the shared option heap and the parser objects. -/
structure World where
  heap : List Opt
  parsers : List ParserObj

def heapModify (w : World) (oid : Nat) (f : Opt → Opt) : World :=
  { w with heap := listModify w.heap oid f }

def parserModify (w : World) (pid : Nat) (f : ParserObj → ParserObj) : World :=
  { w with parsers := listModify w.parsers pid f }

/-- optparse's `_get_all_options` for a parser object: every option
reachable from it (groups share the parser's registration maps). -/
def parserAllIds (p : ParserObj) : List Nat := p.groupIds.flatten ++ p.optionIds

/-- `optparse.OptionContainer.add_option(option)` with an existing
option object: append the id to the container's `option_list`, set the
shared object's `container` back-pointer, and seed the parser's
`defaults` dict from the option's declared default (`None` when the
option declares none and the dest is not yet present). -/
def addOptionEffect (w : World) (pid : Nat) (toGroup : Option Nat) (oid : Nat) : World :=
  match w.heap.get? oid with
  | none => w
  | some o =>
    let w := heapModify w oid (fun o => { o with container := some pid })
    parserModify w pid (fun p =>
      let p :=
        match toGroup with
        | none => { p with optionIds := p.optionIds ++ [oid] }
        | some g => { p with groupIds := listModify p.groupIds g (fun l => l ++ [oid]) }
      if o.dest = "" then p
      else
        match o.default with
        | some dv => { p with pdefaults := dictSet p.pdefaults o.dest dv }
        | none =>
          if (dictGet p.pdefaults o.dest).isSome then p
          else { p with pdefaults := dictSet p.pdefaults o.dest .vnone })

/-- `Command._copy_options`: add each option to the target container,
skipping options with an unset dest and the help option. -/
def copy_options (w : World) (pid : Nat) (toGroup : Option Nat) (ids : List Nat) : World :=
  ids.foldl (fun w oid =>
    match w.heap.get? oid with
    | some o => if o.dest = "" ∨ o.dest = "help" then w else addOptionEffect w pid toGroup oid
    | none => w) w

/-- `Command._copy_option_group`: a fresh group on the target parser,
filled with the source group's options. -/
def copy_option_group (w : World) (pid : Nat) (gids : List Nat) : World :=
  let g := match w.parsers.get? pid with | some p => p.groupIds.length | none => 0
  let w := parserModify w pid (fun p => { p with groupIds := p.groupIds ++ [[]] })
  copy_options w pid (some g) gids

/-- `Command.__init__`: a fresh `ConfigOptionParser` for the command,
every group of the main parser copied, then the main parser's own
options.  Returns the new world and the new parser's id. -/
def buildCommandParser (w : World) (mainPid : Nat) (cname : String) : World × Nat :=
  match w.parsers.get? mainPid with
  | none => (w, w.parsers.length)
  | some mp =>
    let pid := w.parsers.length
    let w := { w with parsers := w.parsers ++ [⟨cname, [], [], []⟩] }
    let w := mp.groupIds.foldl (fun w g => copy_option_group w pid g) w
    (copy_options w pid none mp.optionIds, pid)

/-- `get_option` against the world: the first reachable option of the
parser registered under the key. -/
def worldGetOption (w : World) (p : ParserObj) (key : String) : Option Nat :=
  (parserAllIds p).find? (fun oid =>
    match w.heap.get? oid with
    | some o => o.optStrings.contains key
    | none => false)

/-- The mutating effects of one entry of `update_defaults`' loop run
against a parser object: set the shared option's `nargs` to `1` for a
non-append option, then write the coerced value into the parser's
`defaults` dict.  The second component is `false` when the entry raises
(`ValueError` from `strtobool`, or `OptionValueError` and `sys.exit(3)`),
stopping the loop with the mutations made so far in place. -/
def applyCfgEntry (w : World) (pid : Nat) (kv : String × String) : World × Bool :=
  match w.parsers.get? pid with
  | none => (w, true)
  | some p =>
    match worldGetOption w p kv.1 with
    | none => (w, true)
    | some oid =>
      match w.heap.get? oid with
      | none => (w, true)
      | some o =>
        if kv.2 = "" then (w, true)
        else
          let wv : World × Val :=
            if o.action = .append then (w, Val.vlist (pySplit kv.2))
            else (heapModify w oid (fun o => { o with nargs := some 1 }), Val.vstr kv.2)
          let v1? :=
            if o.action = .storeTrue ∨ o.action = .storeFalse ∨ o.action = .count then
              (strtobool kv.2).map Val.vint
            else some wv.2
          match v1? with
          | none => (wv.1, false)
          | some v1 =>
            match check_value o v1 with
            | none => (wv.1, false)
            | some v2 =>
              (parserModify wv.1 pid
                (fun p => { p with pdefaults := dictSet p.pdefaults o.dest v2 }), true)

/-- `update_defaults`' loop over a normalized config dict, as a mutation
of the world (stopping where an exception would propagate). -/
def applyCfg (w : World) (pid : Nat) : List (String × String) → World
  | [] => w
  | kv :: rest =>
    let step := applyCfgEntry w pid kv
    if step.2 then applyCfg step.1 pid rest else step.1

/-- The mutations the claim ranges over: adding an option to the
parser or to one of its groups, attaching a fresh group, and running
`update_defaults` against the parser (the source's only mutation of
resolved defaults). -/
inductive Mutation where
  | addOption (oid : Nat)
  | addGroup
  | addGroupOption (g : Nat) (oid : Nat)
  | updateDefaults (config : List (String × String))

def applyMutation (w : World) (pid : Nat) : Mutation → World
  | .addOption oid => addOptionEffect w pid none oid
  | .addGroup => parserModify w pid (fun p => { p with groupIds := p.groupIds ++ [[]] })
  | .addGroupOption g oid => addOptionEffect w pid (some g) oid
  | .updateDefaults config => applyCfg w pid config

/-- The parse-relevant projection of an option object: its option
strings, dest, action, and effective `nargs` (optparse only consults
`nargs` for value-taking options).  The `container` back-pointer and
the immutable checker feed no parsing decision. -/
def obsOpt (o : Opt) : List String × String × Action × Option Nat :=
  (o.optStrings, o.dest, o.action, if takesValue o.action then o.nargs else none)

/-- The observable state of one parser: the projections of its
reachable options, in order, and its resolved-defaults dict. -/
def observable (w : World) (pid : Nat) :
    Option (List (Option (List String × String × Action × Option Nat)) × List (String × Val)) :=
  (w.parsers.get? pid).map (fun p =>
    ((parserAllIds p).map (fun oid => (w.heap.get? oid).map obsOpt), p.pdefaults))

/-- optparse's `_check_nargs` invariant: every value-taking option has
`nargs = 1`. -/
def nargsWF (w : World) : Prop :=
  ∀ o ∈ w.heap, takesValue o.action = true → o.nargs = some 1

/-! ## The frame claim (C6): lemmas about the aliasing model -/

theorem listModify_get?_ne {α : Type} (l : List α) (i j : Nat) (f : α → α) (h : i ≠ j) :
    (listModify l i f).get? j = l.get? j := by
  induction l generalizing i j with
  | nil => rfl
  | cons a t ih =>
    cases i with
    | zero =>
      cases j with
      | zero => exact absurd rfl h
      | succ j => rfl
    | succ i =>
      cases j with
      | zero => rfl
      | succ j =>
        simp only [listModify, List.get?_cons_succ]
        exact ih i j (fun he => h (congrArg Nat.succ he))

theorem listModify_get?_eq {α : Type} (l : List α) (i : Nat) (f : α → α) :
    (listModify l i f).get? i = (l.get? i).map f := by
  induction l generalizing i with
  | nil => rfl
  | cons a t ih =>
    cases i with
    | zero => rfl
    | succ i =>
      simp only [listModify, List.get?_cons_succ]
      exact ih i

theorem mem_listModify {α : Type} (l : List α) (i : Nat) (f : α → α) (x : α)
    (h : x ∈ listModify l i f) : x ∈ l ∨ ∃ a, a ∈ l ∧ x = f a := by
  induction l generalizing i with
  | nil => cases h
  | cons a t ih =>
    cases i with
    | zero =>
      rcases List.mem_cons.mp h with hx | hx
      · exact Or.inr ⟨a, List.mem_cons_self a t, hx⟩
      · exact Or.inl (List.mem_cons_of_mem a hx)
    | succ i =>
      rcases List.mem_cons.mp h with hx | hx
      · exact Or.inl (hx ▸ List.mem_cons_self a t)
      · rcases ih i hx with hm | ⟨b, hb, hfb⟩
        · exact Or.inl (List.mem_cons_of_mem a hm)
        · exact Or.inr ⟨b, List.mem_cons_of_mem a hb, hfb⟩

/-- Setting `container` does not change the parse-relevant projection. -/
theorem obsOpt_set_container (o : Opt) (cid : Option Nat) :
    obsOpt { o with container := cid } = obsOpt o := rfl

/-- Setting `nargs := 1` does not change the parse-relevant projection
of an option satisfying optparse's `_check_nargs` invariant. -/
theorem obsOpt_set_nargs (o : Opt) (h : takesValue o.action = true → o.nargs = some 1) :
    obsOpt { o with nargs := some 1 } = obsOpt o := by
  unfold obsOpt
  cases htv : takesValue o.action with
  | true => simp [htv, h htv]
  | false => simp [htv]

/-- A heap mutation that preserves the parse-relevant projection of the
touched object is invisible to every parser's observable state. -/
theorem observable_heapModify (w : World) (oid : Nat) (f : Opt → Opt)
    (hf : ∀ o, w.heap.get? oid = some o → obsOpt (f o) = obsOpt o) (q : Nat) :
    observable (heapModify w oid f) q = observable w q := by
  unfold observable heapModify
  dsimp only
  cases hq : w.parsers.get? q with
  | none => rfl
  | some pq =>
    dsimp only [Option.map]
    refine congrArg some (congrArg (fun x => (x, pq.pdefaults)) ?_)
    refine List.map_congr_left ?_
    intro oid' _
    by_cases he : oid = oid'
    · subst he
      rw [listModify_get?_eq]
      cases ho : w.heap.get? oid with
      | none => rfl
      | some o => simp [hf o ho]
    · rw [listModify_get?_ne _ _ _ _ he]

/-- Mutating one parser object is invisible to every other parser. -/
theorem observable_parserModify_ne (w : World) (pid : Nat) (f : ParserObj → ParserObj)
    (q : Nat) (hq : q ≠ pid) :
    observable (parserModify w pid f) q = observable w q := by
  unfold observable parserModify
  dsimp only
  rw [listModify_get?_ne _ _ _ _ (fun he => hq he.symm)]

theorem observable_addOptionEffect (w : World) (pid : Nat) (toGroup : Option Nat)
    (oid : Nat) (q : Nat) (hq : q ≠ pid) :
    observable (addOptionEffect w pid toGroup oid) q = observable w q := by
  unfold addOptionEffect
  cases ho : w.heap.get? oid with
  | none => rfl
  | some o =>
    dsimp only
    rw [observable_parserModify_ne _ _ _ _ hq,
      observable_heapModify _ _ _ (fun o' _ => obsOpt_set_container o' (some pid)) q]

theorem nargsWF_heapModify (w : World) (oid : Nat) (f : Opt → Opt)
    (hf : ∀ o, (takesValue o.action = true → o.nargs = some 1) →
      takesValue (f o).action = true → (f o).nargs = some 1)
    (hwf : nargsWF w) : nargsWF (heapModify w oid f) := by
  intro o ho htv
  rcases mem_listModify w.heap oid f o ho with hm | ⟨a, ha, hfa⟩
  · exact hwf o hm htv
  · subst hfa
    exact hf a (hwf a ha) htv

theorem nargsWF_parserModify (w : World) (pid : Nat) (f : ParserObj → ParserObj)
    (hwf : nargsWF w) : nargsWF (parserModify w pid f) := hwf

/-- One `update_defaults` entry keeps other parsers' observables and the
`_check_nargs` invariant. -/
theorem applyCfgEntry_frame (w : World) (pid : Nat) (kv : String × String) (q : Nat)
    (hq : q ≠ pid) (hwf : nargsWF w) :
    observable (applyCfgEntry w pid kv).1 q = observable w q ∧
    nargsWF (applyCfgEntry w pid kv).1 := by
  unfold applyCfgEntry
  cases hp : w.parsers.get? pid with
  | none => exact ⟨rfl, hwf⟩
  | some p =>
    dsimp only
    cases hgo : worldGetOption w p kv.1 with
    | none => exact ⟨rfl, hwf⟩
    | some oid =>
      dsimp only
      cases ho : w.heap.get? oid with
      | none => exact ⟨rfl, hwf⟩
      | some o =>
        dsimp only
        by_cases hv : kv.2 = ""
        · rw [if_pos hv]
          exact ⟨rfl, hwf⟩
        · rw [if_neg hv]
          by_cases ha : o.action = Action.append
          · rw [if_pos ha]
            dsimp only
            have hb : ¬(o.action = Action.storeTrue ∨ o.action = Action.storeFalse ∨
                o.action = Action.count) := by
              rw [ha]
              intro hcon
              rcases hcon with h1 | h1 | h1 <;> cases h1
            rw [if_neg hb]
            dsimp only
            cases check_value o (Val.vlist (pySplit kv.2)) with
            | none => exact ⟨rfl, hwf⟩
            | some v2 =>
              exact ⟨observable_parserModify_ne _ _ _ _ hq, nargsWF_parserModify _ _ _ hwf⟩
          · rw [if_neg ha]
            dsimp only
            have hobs : observable (heapModify w oid
                (fun o => { o with nargs := some 1 })) q = observable w q := by
              refine observable_heapModify _ _ _ ?_ q
              intro o' ho'
              exact obsOpt_set_nargs o' (hwf o' (List.get?_mem ho'))
            have hwf' : nargsWF (heapModify w oid (fun o => { o with nargs := some 1 })) :=
              nargsWF_heapModify _ _ _ (fun _ _ _ => rfl) hwf
            by_cases hbb : (o.action = Action.storeTrue ∨ o.action = Action.storeFalse ∨
                o.action = Action.count)
            · rw [if_pos hbb]
              cases strtobool kv.2 with
              | none => exact ⟨hobs, hwf'⟩
              | some n =>
                dsimp only [Option.map]
                cases check_value o (Val.vint n) with
                | none => exact ⟨hobs, hwf'⟩
                | some v2 =>
                  exact ⟨(observable_parserModify_ne _ _ _ _ hq).trans hobs,
                    nargsWF_parserModify _ _ _ hwf'⟩
            · rw [if_neg hbb]
              dsimp only
              cases check_value o (Val.vstr kv.2) with
              | none => exact ⟨hobs, hwf'⟩
              | some v2 =>
                exact ⟨(observable_parserModify_ne _ _ _ _ hq).trans hobs,
                  nargsWF_parserModify _ _ _ hwf'⟩

theorem applyCfg_frame (cfg : List (String × String)) (w : World) (pid q : Nat)
    (hq : q ≠ pid) (hwf : nargsWF w) :
    observable (applyCfg w pid cfg) q = observable w q := by
  induction cfg generalizing w with
  | nil => rfl
  | cons kv rest ih =>
    unfold applyCfg
    obtain ⟨hobs, hwf'⟩ := applyCfgEntry_frame w pid kv q hq hwf
    dsimp only
    cases hc : (applyCfgEntry w pid kv).2 with
    | true =>
      rw [if_pos rfl]
      exact (ih (applyCfgEntry w pid kv).1 hwf').trans hobs
    | false =>
      rw [if_neg (by simp)]
      exact hobs

theorem nargsWF_heap_eq (w w' : World) (h : w'.heap = w.heap) (hwf : nargsWF w) :
    nargsWF w' := by
  intro o ho
  exact hwf o (h ▸ ho)

theorem nargsWF_addOptionEffect (w : World) (pid : Nat) (toGroup : Option Nat) (oid : Nat)
    (hwf : nargsWF w) : nargsWF (addOptionEffect w pid toGroup oid) := by
  unfold addOptionEffect
  cases ho : w.heap.get? oid with
  | none => exact hwf
  | some o =>
    dsimp only
    exact nargsWF_parserModify _ _ _
      (nargsWF_heapModify _ _ _ (fun a hwfa htv => hwfa htv) hwf)

theorem nargsWF_copy_options (ids : List Nat) (w : World) (pid : Nat) (toGroup : Option Nat)
    (hwf : nargsWF w) : nargsWF (copy_options w pid toGroup ids) := by
  induction ids generalizing w with
  | nil => exact hwf
  | cons oid rest ih =>
    unfold copy_options
    rw [List.foldl_cons]
    have h1 : nargsWF (match w.heap.get? oid with
        | some o => if o.dest = "" ∨ o.dest = "help" then w
                    else addOptionEffect w pid toGroup oid
        | none => w) := by
      cases w.heap.get? oid with
      | none => exact hwf
      | some o =>
        dsimp only
        split
        · exact hwf
        · exact nargsWF_addOptionEffect w pid toGroup oid hwf
    exact ih _ h1

theorem nargsWF_copy_option_group (w : World) (pid : Nat) (gids : List Nat)
    (hwf : nargsWF w) : nargsWF (copy_option_group w pid gids) :=
  nargsWF_copy_options gids _ pid _ (nargsWF_parserModify _ _ _ hwf)

theorem nargsWF_foldl_groups (gss : List (List Nat)) (w : World) (pid : Nat)
    (hwf : nargsWF w) :
    nargsWF (gss.foldl (fun w g => copy_option_group w pid g) w) := by
  induction gss generalizing w with
  | nil => exact hwf
  | cons gids rest ih =>
    rw [List.foldl_cons]
    exact ih _ (nargsWF_copy_option_group w pid gids hwf)

/-- `Command.__init__` preserves the `_check_nargs` invariant (it never
touches `nargs`), so built worlds stay inside the frame theorem's
hypothesis. -/
theorem nargsWF_buildCommandParser (w : World) (mainPid : Nat) (cname : String)
    (hwf : nargsWF w) : nargsWF (buildCommandParser w mainPid cname).1 := by
  unfold buildCommandParser
  cases hp : w.parsers.get? mainPid with
  | none => exact hwf
  | some mp =>
    dsimp only
    exact nargsWF_copy_options mp.optionIds _ _ _
      (nargsWF_foldl_groups mp.groupIds _ _ hwf)

/-- C6: mutating one command's parser — adding an option to the parser
or to one of its groups, attaching a fresh group, or running
`update_defaults` against it — never changes the observable option set
or resolved-defaults dict of the global parser or of any sibling
command's parser, in any world satisfying optparse's `_check_nargs`
invariant; and `Command.__init__` (`buildCommandParser`) preserves that
invariant, so worlds built from the global parser stay inside the
hypothesis. -/
theorem c6_parser_isolation :
    (∀ (w : World) (pid q : Nat) (m : Mutation), nargsWF w → q ≠ pid →
      observable (applyMutation w pid m) q = observable w q) ∧
    (∀ (w : World) (mainPid : Nat) (cname : String), nargsWF w →
      nargsWF (buildCommandParser w mainPid cname).1) := by
  constructor
  · intro w pid q m hwf hq
    cases m with
    | addOption oid => exact observable_addOptionEffect w pid none oid q hq
    | addGroup => exact observable_parserModify_ne w pid _ q hq
    | addGroupOption g oid => exact observable_addOptionEffect w pid (some g) oid q hq
    | updateDefaults cfg => exact applyCfg_frame cfg w pid q hq hwf
  · intro w mainPid cname hwf
    exact nargsWF_buildCommandParser w mainPid cname hwf

/-- A concrete object graph: a counter option and a value-taking option
shared by a global parser and two command parsers. -/
def exWorld : World :=
  ⟨[⟨["-v", "--verbose"], "verbose", .count, none, none, none, some (.vint 0)⟩,
    ⟨["--timeout"], "timeout", .store, none, some 1, none, some (.vint 15)⟩],
   [⟨"global", [0, 1], [], [("verbose", .vint 0), ("timeout", .vint 15)]⟩,
    ⟨"install", [0, 1], [], [("verbose", .vint 0), ("timeout", .vint 15)]⟩,
    ⟨"download", [0, 1], [], [("verbose", .vint 0), ("timeout", .vint 15)]⟩]⟩

/-- Witness for C6: on the concrete graph, running `update_defaults` on
parser 1 leaves parser 0 (the global parser) unchanged, adding an option
to parser 1 leaves parser 2 (a sibling) unchanged, and building a new
command parser preserves the invariant. -/
theorem c6_parser_isolation_witness :
    observable (applyMutation exWorld 1 (.updateDefaults [("--timeout", "30")])) 0 =
      observable exWorld 0 ∧
    observable (applyMutation exWorld 1 (.addOption 1)) 2 = observable exWorld 2 ∧
    nargsWF (buildCommandParser exWorld 0 "search").1 := by
  refine ⟨?_, ?_, ?_⟩
  · exact c6_parser_isolation.1 exWorld 1 0 (.updateDefaults [("--timeout", "30")])
      (by intro o ho htv; fin_cases ho <;> revert htv <;> decide) (by decide)
  · exact c6_parser_isolation.1 exWorld 1 2 (.addOption 1)
      (by intro o ho htv; fin_cases ho <;> revert htv <;> decide) (by decide)
  · exact c6_parser_isolation.2 exWorld 0 "search"
      (by intro o ho htv; fin_cases ho <;> revert htv <;> decide)

/-! ## Claims about the requirement reconstructor -/

/-- C7: for a distribution not owned by any VCS backend whose single
exact-version specifier is a plain version with no legacy suffix, the
reconstructed record is non-editable with no comment lines and renders
as exactly `name==version` plus one trailing newline; and in this branch
anything other than exactly one `==` specifier is a fatal contract
violation (the `assert` raises). -/
theorem c7_plain_pin :
    (∀ (v : VcsRegistry) (dist : Dist) (deps : List String) (ft : Bool) (ver : String),
      v.getBackendName dist.location = none →
      dist.asRequirement.specs = [("==", ver)] →
      rev_re_search ver = none →
      date_re_search ver = none →
      dist.asRequirement.str = dist.projectName ++ "==" ++ ver →
      ∃ fr, FrozenRequirement.from_dist v dist deps ft = .ok fr ∧
        fr.editable = false ∧ fr.comments = [] ∧
        fr.toString = dist.projectName ++ "==" ++ ver ++ "\n") ∧
    (∀ (v : VcsRegistry) (dist : Dist) (deps : List String) (ft : Bool),
      v.getBackendName dist.location = none →
      (∀ ver, dist.asRequirement.specs ≠ [("==", ver)]) →
      FrozenRequirement.from_dist v dist deps ft = .error .assertionError) := by
  constructor
  · intro v dist deps ft ver hvcs hspecs hrev hdate hstr
    refine ⟨⟨dist.projectName, dist.asRequirement.str, false, []⟩, ?_, rfl, rfl, ?_⟩
    · simp only [FrozenRequirement.from_dist, hvcs, hspecs, hrev, hdate, if_pos rfl]
      simp
    · have h : (⟨dist.projectName, dist.asRequirement.str, false, []⟩ :
          FrozenRequirement).toString = dist.asRequirement.str ++ "\n" := rfl
      rw [h, hstr]
  · intro v dist deps ft hvcs hspecs
    simp only [FrozenRequirement.from_dist, hvcs]
    match hs : dist.asRequirement.specs with
    | [] => rfl
    | [(op, ver)] =>
      have : op ≠ "==" := by
        intro h
        exact hspecs ver (by rw [hs, h])
      simp [this]
    | _ :: _ :: _ => rfl

/-- Witness for C7 at a concrete distribution (`pkg` pinned `1.2.3`,
empty registry, and one with a malformed two-specifier requirement). -/
theorem c7_plain_pin_witness :
    (∃ fr, FrozenRequirement.from_dist ⟨fun _ => none, fun _ _ _ => none, fun _ => none⟩
        ⟨"pkg", "/site/pkg", "pkg-1.2.3", ⟨"pkg==1.2.3", [("==", "1.2.3")]⟩⟩ [] false = .ok fr ∧
      fr.editable = false ∧ fr.comments = [] ∧ fr.toString = "pkg==1.2.3\n") ∧
    FrozenRequirement.from_dist ⟨fun _ => none, fun _ _ _ => none, fun _ => none⟩
        ⟨"pkg", "/site/pkg", "pkg-1.2.3", ⟨"pkg>=1,<2", [(">=", "1"), ("<", "2")]⟩⟩ [] false =
      .error .assertionError := by
  constructor
  · have h := c7_plain_pin.1 ⟨fun _ => none, fun _ _ _ => none, fun _ => none⟩
      ⟨"pkg", "/site/pkg", "pkg-1.2.3", ⟨"pkg==1.2.3", [("==", "1.2.3")]⟩⟩ [] false "1.2.3"
      rfl rfl rfl rfl rfl
    simpa using h
  · exact c7_plain_pin.2 ⟨fun _ => none, fun _ _ _ => none, fun _ => none⟩
      ⟨"pkg", "/site/pkg", "pkg-1.2.3", ⟨"pkg>=1,<2", [(">=", "1"), ("<", "2")]⟩⟩ [] false
      rfl (by intro ver h; simp at h)

/-- C8: for a non-VCS-owned distribution whose version carries a legacy
revision or date suffix, with the `svn` backend registered: no location
⇒ the record stays a non-editable plain pin and gains the
missing-source comment line; a (nonempty) location ⇒ the record is
rewritten as editable with locator, revision (or braced date) and
derived egg name. -/
theorem c8_legacy_suffix (v : VcsRegistry) (dist : Dist) (deps : List String) (ft : Bool)
    (ver : String) (b : SvnBackend)
    (hvcs : v.getBackendName dist.location = none)
    (hspecs : dist.asRequirement.specs = [("==", ver)])
    (hlegacy : (rev_re_search ver).isSome ∨ (date_re_search ver).isSome)
    (hb : v.getBackend "svn" = some b) :
    (b.getLocation dist deps = none →
      FrozenRequirement.from_dist v dist deps ft = .ok
        ⟨dist.projectName, dist.asRequirement.str, false,
         ["## FIXME: could not find svn URL in dependency_links for this package:"]⟩) ∧
    (∀ loc, b.getLocation dist deps = some loc → loc ≠ "" →
      FrozenRequirement.from_dist v dist deps ft = .ok
        ⟨dist.projectName,
         loc ++ "@" ++ legacyRev (rev_re_search ver) (date_re_search ver) ++ "#egg=" ++
           egg_name dist,
         true,
         ["# Installing as editable to satisfy requirement " ++ dist.asRequirement.str ++ ":"]⟩) := by
  constructor
  · intro hloc
    simp [FrozenRequirement.from_dist, hvcs, hspecs, hlegacy, hb, hloc]
  · intro loc hloc hne
    simp [FrozenRequirement.from_dist, hvcs, hspecs, hlegacy, hb, hloc, hne]

/-- Witness for C8 at version `1.2-r45`: a registry whose `svn` backend
finds no location, and one whose backend answers `http://svn.example/p`. -/
theorem c8_legacy_suffix_witness :
    FrozenRequirement.from_dist
        ⟨fun _ => none, fun _ _ _ => none, fun n => if n = "svn" then some ⟨fun _ _ => none⟩ else none⟩
        ⟨"pkg", "/site/pkg", "pkg-1.2-r45-py2.7", ⟨"pkg==1.2-r45", [("==", "1.2-r45")]⟩⟩ [] false =
      .ok ⟨"pkg", "pkg==1.2-r45", false,
        ["## FIXME: could not find svn URL in dependency_links for this package:"]⟩ ∧
    FrozenRequirement.from_dist
        ⟨fun _ => none, fun _ _ _ => none,
         fun n => if n = "svn" then some ⟨fun _ _ => some "http://svn.example/p"⟩ else none⟩
        ⟨"pkg", "/site/pkg", "pkg-1.2-r45-py2.7", ⟨"pkg==1.2-r45", [("==", "1.2-r45")]⟩⟩ [] false =
      .ok ⟨"pkg", "http://svn.example/p@45#egg=pkg-1.2-r45", true,
        ["# Installing as editable to satisfy requirement pkg==1.2-r45:"]⟩ := by
  constructor
  · have h := (c8_legacy_suffix
      ⟨fun _ => none, fun _ _ _ => none, fun n => if n = "svn" then some ⟨fun _ _ => none⟩ else none⟩
      ⟨"pkg", "/site/pkg", "pkg-1.2-r45-py2.7", ⟨"pkg==1.2-r45", [("==", "1.2-r45")]⟩⟩ [] false
      "1.2-r45" ⟨fun _ _ => none⟩ rfl rfl (Or.inl rfl) rfl).1 rfl
    simpa using h
  · have h := (c8_legacy_suffix
      ⟨fun _ => none, fun _ _ _ => none,
       fun n => if n = "svn" then some ⟨fun _ _ => some "http://svn.example/p"⟩ else none⟩
      ⟨"pkg", "/site/pkg", "pkg-1.2-r45-py2.7", ⟨"pkg==1.2-r45", [("==", "1.2-r45")]⟩⟩ [] false
      "1.2-r45" ⟨fun _ _ => some "http://svn.example/p"⟩ rfl rfl (Or.inl rfl) rfl).2
      "http://svn.example/p" rfl (by decide)
    simpa using h

/-- C10 (implicit): in the non-VCS branch, when the version matches a
legacy suffix but `vcs.get_backend('svn')` returns nothing,
`svn_location` is read at `if not svn_location:` before ever being
assigned, so reconstruction fails with an unbound-local error instead of
falling back to the plain pin plus comment. -/
theorem c10_unbound_svn_location (v : VcsRegistry) (dist : Dist) (deps : List String)
    (ft : Bool) (ver : String)
    (hvcs : v.getBackendName dist.location = none)
    (hspecs : dist.asRequirement.specs = [("==", ver)])
    (hlegacy : (rev_re_search ver).isSome ∨ (date_re_search ver).isSome)
    (hb : v.getBackend "svn" = none) :
    FrozenRequirement.from_dist v dist deps ft = .error .unboundLocal := by
  simp [FrozenRequirement.from_dist, hvcs, hspecs, hlegacy, hb]

/-! ## Claims about `Command.main` -/

/-- C4: once the command body runs (no virtualenv abort), debug-log
persistence is triggered exactly for the domain errors
(installation/uninstallation/bad-command), a user interrupt, and any
other uncaught exception — never for `CommandError` or a normal return;
and the virtualenv abort never triggers it. -/
theorem c4_persistence_iff :
    (∀ (rv : Val) (venv : Option String) (outcome : RunOutcome),
      ¬(truthy rv = true ∧ venv.getD "" = "") →
      (triggersPersistence (commandMain rv venv outcome) = true ↔
        outcome = .installationError ∨ outcome = .uninstallationError ∨
        outcome = .badCommand ∨ outcome = .keyboardInterrupt ∨ outcome = .otherExc)) ∧
    (∀ (rv : Val) (venv : Option String) (outcome : RunOutcome),
      truthy rv = true → venv.getD "" = "" →
      triggersPersistence (commandMain rv venv outcome) = false) := by
  constructor
  · intro rv venv outcome h
    simp only [commandMain, if_neg h]
    cases outcome <;> simp [triggersPersistence]
  · intro rv venv outcome h1 h2
    simp [commandMain, h1, h2, triggersPersistence]

/-- Witness for C4: `CommandError` and a normal return do not trigger
persistence, `InstallationError` does, and the virtualenv abort does not. -/
theorem c4_persistence_iff_witness :
    triggersPersistence (commandMain (Val.vint 0) none .commandError) = false ∧
    triggersPersistence (commandMain (Val.vint 0) none (.ret none)) = false ∧
    triggersPersistence (commandMain (Val.vint 0) none .installationError) = true ∧
    triggersPersistence (commandMain (Val.vint 1) none .otherExc) = false := by
  refine ⟨?_, ?_, ?_, ?_⟩
  · have h := c4_persistence_iff.1 (Val.vint 0) none .commandError (by decide)
    simpa using h
  · have h := c4_persistence_iff.1 (Val.vint 0) none (.ret none) (by decide)
    simpa using h
  · exact (c4_persistence_iff.1 (Val.vint 0) none .installationError (by decide)).mpr
      (Or.inl rfl)
  · exact c4_persistence_iff.2 (Val.vint 1) none .otherExc rfl rfl

/-- C5 counterexample: a command body that completes normally returning
the integer status `7` yields exit code `7`, not `SUCCESS`, so "a
command body completing normally (or returning nothing) yields SUCCESS"
fails as stated. -/
theorem c5_counterexample :
    commandMain (Val.vint 0) (some "/venv") (.ret (some 7)) = .finished 7 false ∧
    (7 : Int) ≠ SUCCESS := by
  constructor
  · rfl
  · decide

/-- C5 (amended): a normally completing body yields its returned integer
status as the exit code (`SUCCESS` when it returns nothing); recognized
domain failures and a user interrupt yield `ERROR`; `CommandError`
yields `ERROR` without persistence; any other uncaught exception yields
`UNKNOWN_ERROR`; and with require-virtualenv set and no active
virtualenv the run aborts with `VIRTUALENV_NOT_FOUND` independently of
the body and without persistence. -/
theorem c5_exit_mapping :
    (∀ (rv : Val) (venv : Option String) (s : Option Int),
      ¬(truthy rv = true ∧ venv.getD "" = "") →
      commandMain rv venv (.ret s) = .finished (s.getD SUCCESS) false) ∧
    (∀ (rv : Val) (venv : Option String),
      ¬(truthy rv = true ∧ venv.getD "" = "") →
      commandMain rv venv .installationError = .finished ERROR true ∧
      commandMain rv venv .uninstallationError = .finished ERROR true ∧
      commandMain rv venv .badCommand = .finished ERROR true ∧
      commandMain rv venv .commandError = .finished ERROR false ∧
      commandMain rv venv .keyboardInterrupt = .finished ERROR true ∧
      commandMain rv venv .otherExc = .finished UNKNOWN_ERROR true) ∧
    (∀ (rv : Val) (venv : Option String) (outcome : RunOutcome),
      truthy rv = true → venv.getD "" = "" →
      commandMain rv venv outcome = .aborted VIRTUALENV_NOT_FOUND ∧
      triggersPersistence (commandMain rv venv outcome) = false) := by
  refine ⟨?_, ?_, ?_⟩
  · intro rv venv s h
    simp only [commandMain, if_neg h]
    cases s <;> rfl
  · intro rv venv h
    simp [commandMain, if_neg h]
  · intro rv venv outcome h1 h2
    constructor <;> simp [commandMain, h1, h2, triggersPersistence]

/-- Witness for C5 (amended) at concrete inputs. -/
theorem c5_exit_mapping_witness :
    commandMain (Val.vint 0) none (.ret (some 7)) = .finished 7 false ∧
    commandMain (Val.vint 0) none (.ret none) = .finished SUCCESS false ∧
    commandMain (Val.vint 0) none .installationError = .finished ERROR true ∧
    commandMain (Val.vint 1) none .otherExc = .aborted VIRTUALENV_NOT_FOUND := by
  refine ⟨?_, ?_, ?_, ?_⟩
  · exact c5_exit_mapping.1 (Val.vint 0) none (some 7) (by decide)
  · exact c5_exit_mapping.1 (Val.vint 0) none none (by decide)
  · exact (c5_exit_mapping.2.1 (Val.vint 0) none (by decide)).1
  · exact (c5_exit_mapping.2.2 (Val.vint 1) none .otherExc rfl rfl).1

/-! ## Claims about `Command.merge_options` -/

/-- Inversion of one carry-over step. -/
theorem mergeAttr_some (initial d : Values) (b : String) (d' : Values)
    (h : mergeAttr initial d b = some d') :
    ∃ vi v, dictGet initial b = some vi ∧
      (if truthy vi then some vi else dictGet d b) = some v ∧
      d' = dictSet d b v := by
  unfold mergeAttr getattrV at h
  split at h
  · exact absurd h (by simp)
  next vi hvi =>
    split at h
    · exact absurd h (by simp)
    next v hv =>
      exact ⟨vi, v, hvi, hv, (Option.some_inj.mp h).symm⟩

/-- The carry-over fold leaves attributes outside the processed list
untouched. -/
theorem mergeFold_get_notMem (initial : Values) (attrs : List String) (d r : Values)
    (a : String) (ha : a ∉ attrs)
    (h : List.foldlM (fun acc x => mergeAttr initial acc x) d attrs = some r) :
    dictGet r a = dictGet d a := by
  induction attrs generalizing d with
  | nil =>
    simp only [List.foldlM_nil] at h
    cases h
    rfl
  | cons b t ih =>
    simp only [List.foldlM_cons] at h
    cases hm : mergeAttr initial d b with
    | none => rw [hm] at h; simp at h
    | some d₁ =>
      rw [hm] at h
      simp only [Option.bind_eq_bind, Option.some_bind] at h
      obtain ⟨vi, v, -, -, hd₁⟩ := mergeAttr_some initial d b d₁ hm
      subst hd₁
      have hba : b ≠ a := fun he => ha (he ▸ List.mem_cons_self b t)
      rw [ih (dictSet d b v) (fun hmem => ha (List.mem_cons_of_mem b hmem)) h,
        dictGet_dictSet_other _ _ _ _ hba]

/-- The carry-over fold computes, on each processed attribute, the
global value when truthy and otherwise the command value (the latter
untouched by the other steps when the attributes are distinct). -/
theorem mergeFold_get_mem (initial : Values) (attrs : List String) (d r : Values)
    (a : String) (hnd : attrs.Nodup) (ha : a ∈ attrs)
    (h : List.foldlM (fun acc x => mergeAttr initial acc x) d attrs = some r) :
    ∃ vi, dictGet initial a = some vi ∧
      dictGet r a = if truthy vi then some vi else dictGet d a := by
  induction attrs generalizing d with
  | nil => cases ha
  | cons b t ih =>
    simp only [List.foldlM_cons] at h
    cases hm : mergeAttr initial d b with
    | none => rw [hm] at h; simp at h
    | some d₁ =>
      rw [hm] at h
      simp only [Option.bind_eq_bind, Option.some_bind] at h
      obtain ⟨vi, v, hvi, hv, hd₁⟩ := mergeAttr_some initial d b d₁ hm
      rcases List.mem_cons.mp ha with hab | hat
      · subst hab
        refine ⟨vi, hvi, ?_⟩
        have hnotin : a ∉ t := (List.nodup_cons.mp hnd).1
        rw [mergeFold_get_notMem initial t d₁ r a hnotin h]
        subst hd₁
        rw [dictGet_dictSet_same]
        exact hv.symm
      · have hba : b ≠ a := fun he => (List.nodup_cons.mp hnd).1 (he ▸ hat)
        obtain ⟨vi', hvi', hr⟩ := ih d₁ (List.nodup_cons.mp hnd).2 hat h
        refine ⟨vi', hvi', ?_⟩
        rw [hr]
        subst hd₁
        rw [dictGet_dictSet_other _ _ _ _ hba]

/-- Inversion of `merge_options`: the carry-over fold succeeded and the
result is the fold's output with the two counters re-set to the sums. -/
theorem merge_options_inv (initial options merged : Values)
    (h : merge_options initial options = some merged) :
    ∃ opts₁ q qi q' v vi v',
      List.foldlM (fun acc a => mergeAttr initial acc a) options carryOverAttrs = some opts₁ ∧
      dictGet opts₁ "quiet" = some q ∧ dictGet initial "quiet" = some qi ∧
      valAdd q qi = some q' ∧
      dictGet (dictSet opts₁ "quiet" q') "verbose" = some v ∧
      dictGet initial "verbose" = some vi ∧ valAdd v vi = some v' ∧
      merged = dictSet (dictSet opts₁ "quiet" q') "verbose" v' := by
  unfold merge_options getattrV at h
  split at h
  · exact absurd h (by simp)
  next opts₁ hf =>
    split at h
    · exact absurd h (by simp)
    next q hq =>
      split at h
      · exact absurd h (by simp)
      next qi hqi =>
        split at h
        · exact absurd h (by simp)
        next q' hq' =>
          split at h
          · exact absurd h (by simp)
          next v hv =>
            split at h
            · exact absurd h (by simp)
            next vi hvi =>
              split at h
              · exact absurd h (by simp)
              next v' hv' =>
                exact ⟨opts₁, q, qi, q', v, vi, v', hf, hq, hqi, hq', hv, hvi, hv',
                  (Option.some_inj.mp h).symm⟩

/-! ## The precedence claim (C1)

The reference side of the refinement: `specResolvedValue` is written
from the spec's precedence sentence, to be compared with what the
translated pipeline (`parse_args_values`) computes. -/

/-- The value the per-entry loop of `update_defaults` derives from one
raw config/environment string for option `o` (`none` collapses the
abnormal exits — `ValueError`, `sys.exit(3)`). -/
def specEntryVal (o : Opt) (w : String) : Option Val :=
  match (if o.action = .storeTrue ∨ o.action = .storeFalse ∨ o.action = .count then
           (strtobool w).map Val.vint
         else some (if o.action = .append then Val.vlist (pySplit w) else .vstr w)) with
  | none => none
  | some v1 => check_value o v1

/-- The re-check `get_default_values` applies to whatever default ended
up under the option's dest: strings go through `check_value` again,
everything else is returned unchanged. -/
def postCheckVal (o : Opt) : Option Val → Option Val
  | some (.vstr s) => check_value o (.vstr s)
  | x => x

/-- A config-sourced value after both coercion stages. -/
def specConfigVal (o : Opt) (w : String) : Option Val :=
  match specEntryVal o w with
  | some v => postCheckVal o (some v)
  | none => none

/-- Modelled from the spec's precedence sentence ("CLI value > env value
> command-section config > global-section config > default"): the
reference resolution of one option whose key each source either sets
(to a nonempty raw string, or a parsed CLI value) or omits. -/
def specResolvedValue (o : Opt) (builtins : List (String × Val)) (g c e : Option String)
    (cliv : Option Val) : Option Val :=
  match cliv with
  | some v => some v
  | none =>
    match e with
    | some w => specConfigVal o w
    | none =>
      match c with
      | some w => specConfigVal o w
      | none =>
        match g with
        | some w => specConfigVal o w
        | none => postCheckVal o (dictGet builtins o.dest)

/-- A config-file layout in which the `global` section and the
command's own section each either set the key `k` once or omit it, and
no other section exists. -/
def mkSecs (cname k : String) (g c : Option String) : String → List (String × String) :=
  fun s =>
    if s = "global" then (match g with | some v => [(k, v)] | none => [])
    else if s = cname then (match c with | some v => [(k, v)] | none => [])
    else []

/-- An environment that either sets `PIP_<a>` once or is empty. -/
def mkEnviron (a : String) (e : Option String) : List (String × String) :=
  match e with
  | some v => [("PIP_" ++ a, v)]
  | none => []

theorem pyStartsWith_self_append (p a : String) : pyStartsWith (p ++ a) p = true := by
  have hdata : (p ++ a).data = p.data ++ a.data := rfl
  simp only [pyStartsWith, hdata]
  exact List.isPrefixOf_iff_prefix.mpr (List.prefix_append p.data a.data)

/-- One config entry, processed against an option registered under its
key: success stores the coerced value, and the entry fails exactly when
the staged coercion does. -/
theorem applyEntry_ok_of_spec (p : Parser) (d : List (String × Val)) (k w : String)
    (o : Opt) (v : Val) (ho : get_option p k = some o) (hw : ¬ w = "")
    (hspec : specEntryVal o w = some v) :
    applyEntry p d k w = .ok (dictSet d o.dest v) := by
  unfold applyEntry
  rw [ho]
  dsimp only
  rw [if_neg hw]
  unfold specEntryVal at hspec
  by_cases hb : (o.action = .storeTrue ∨ o.action = .storeFalse ∨ o.action = .count)
  · rw [if_pos hb] at hspec ⊢
    cases hs : strtobool w with
    | none => rw [hs] at hspec; simp at hspec
    | some n =>
      rw [hs] at hspec
      dsimp only [Option.map] at hspec
      dsimp only
      rw [hspec]
  · rw [if_neg hb] at hspec ⊢
    dsimp only at hspec
    dsimp only
    rw [hspec]

theorem applyEntry_error_of_spec (p : Parser) (d : List (String × Val)) (k w : String)
    (o : Opt) (ho : get_option p k = some o) (hw : ¬ w = "")
    (hspec : specEntryVal o w = none) :
    ∃ err, applyEntry p d k w = .error err := by
  unfold applyEntry
  rw [ho]
  dsimp only
  rw [if_neg hw]
  unfold specEntryVal at hspec
  by_cases hb : (o.action = .storeTrue ∨ o.action = .storeFalse ∨ o.action = .count)
  · rw [if_pos hb] at hspec ⊢
    cases hs : strtobool w with
    | none => exact ⟨ResolveErr.valueError, rfl⟩
    | some n =>
      rw [hs] at hspec
      dsimp only [Option.map] at hspec
      dsimp only
      rw [hspec]
      exact ⟨ResolveErr.configExit, rfl⟩
  · rw [if_neg hb] at hspec ⊢
    dsimp only at hspec
    dsimp only
    rw [hspec]
    exact ⟨ResolveErr.configExit, rfl⟩

theorem postStep_get_other (d d' : List (String × Val)) (o : Opt) (a : String)
    (hne : o.dest ≠ a) (h : postStep d o = .ok d') : dictGet d' a = dictGet d a := by
  unfold postStep at h
  cases hval : dictGet d o.dest with
  | none => rw [hval] at h; dsimp only at h; cases h; rfl
  | some x =>
    cases x with
    | vstr s =>
      rw [hval] at h
      dsimp only at h
      cases hcv : check_value o (.vstr s) with
      | none => rw [hcv] at h; dsimp only at h; cases h
      | some v =>
        rw [hcv] at h
        dsimp only at h
        cases h
        exact dictGet_dictSet_other _ _ _ _ hne
    | vint n => rw [hval] at h; dsimp only at h; cases h; rfl
    | vlist l => rw [hval] at h; dsimp only at h; cases h; rfl
    | vnone => rw [hval] at h; dsimp only at h; cases h; rfl

theorem postStep_get_self (d d' : List (String × Val)) (o : Opt)
    (h : postStep d o = .ok d') :
    dictGet d' o.dest = postCheckVal o (dictGet d o.dest) := by
  unfold postStep at h
  cases hval : dictGet d o.dest with
  | none => rw [hval] at h; dsimp only at h; cases h; rw [hval]; rfl
  | some x =>
    cases x with
    | vstr s =>
      rw [hval] at h
      dsimp only at h
      cases hcv : check_value o (.vstr s) with
      | none => rw [hcv] at h; dsimp only at h; cases h
      | some v =>
        rw [hcv] at h
        dsimp only at h
        cases h
        rw [dictGet_dictSet_same]
        dsimp only [postCheckVal]
        exact hcv.symm
    | vint n => rw [hval] at h; dsimp only at h; cases h; rw [hval]; rfl
    | vlist l => rw [hval] at h; dsimp only at h; cases h; rw [hval]; rfl
    | vnone => rw [hval] at h; dsimp only at h; cases h; rw [hval]; rfl

/-- The re-check fold of `get_default_values` leaves dests outside the
processed option list untouched. -/
theorem postFold_get_notMem (opts : List Opt) (d r : List (String × Val)) (a : String)
    (hno : ∀ o ∈ opts, o.dest ≠ a)
    (h : List.foldlM postStep d opts = .ok r) : dictGet r a = dictGet d a := by
  induction opts generalizing d with
  | nil =>
    rw [List.foldlM_nil] at h
    cases h
    rfl
  | cons o t ih =>
    rw [List.foldlM_cons] at h
    cases hm : postStep d o with
    | error e => rw [hm] at h; dsimp only [Bind.bind, Except.bind] at h; cases h
    | ok d₁ =>
      rw [hm] at h
      dsimp only [Bind.bind, Except.bind] at h
      rw [ih d₁ (fun o' ho' => hno o' (List.mem_cons_of_mem o ho')) h]
      exact postStep_get_other d d₁ o a (hno o (List.mem_cons_self o t)) hm

/-- The re-check fold applies exactly one `postCheckVal` at the dest of
an option appearing once among the parser's options. -/
theorem postFold_get_focus (l₁ l₂ : List Opt) (o : Opt) (d r : List (String × Val))
    (h₁ : ∀ o' ∈ l₁, o'.dest ≠ o.dest) (h₂ : ∀ o' ∈ l₂, o'.dest ≠ o.dest)
    (h : List.foldlM postStep d (l₁ ++ o :: l₂) = .ok r) :
    dictGet r o.dest = postCheckVal o (dictGet d o.dest) := by
  rw [List.foldlM_append] at h
  cases hm : List.foldlM postStep d l₁ with
  | error e => rw [hm] at h; dsimp only [Bind.bind, Except.bind] at h; cases h
  | ok d₁ =>
    rw [hm] at h
    dsimp only [Bind.bind, Except.bind] at h
    rw [List.foldlM_cons] at h
    cases hs : postStep d₁ o with
    | error e => rw [hs] at h; dsimp only [Bind.bind, Except.bind] at h; cases h
    | ok d₂ =>
      rw [hs] at h
      dsimp only [Bind.bind, Except.bind] at h
      rw [postFold_get_notMem l₂ d₂ r o.dest h₂ h, postStep_get_self d₁ d₂ o hs,
        postFold_get_notMem l₁ d d₁ o.dest h₁ hm]

theorem mkSecs_global (cname k : String) (g c : Option String) :
    mkSecs cname k g c "global" = (match g with | some v => [(k, v)] | none => []) := by
  unfold mkSecs
  rw [if_pos rfl]

theorem mkSecs_self (cname k : String) (g c : Option String) (h : cname ≠ "global") :
    mkSecs cname k g c cname = (match c with | some v => [(k, v)] | none => []) := by
  unfold mkSecs
  rw [if_neg h, if_pos rfl]

theorem normalize_keys_single (k : String) (x : Option String) (hnk : normKey k = k) :
    normalize_keys (match x with | some v => [(k, v)] | none => []) =
      (match x with | some v => [(k, v)] | none => []) := by
  cases x with
  | none => rfl
  | some v => simp [normalize_keys, dictSet, hnk]

theorem environ_config (a : String) (e : Option String) (k : String)
    (hek : normKey (pyLower (pyReplace ("PIP_" ++ a) "PIP_" "")) = k) :
    normalize_keys (get_environ_vars (mkEnviron a e)) =
      (match e with | some v => [(k, v)] | none => []) := by
  cases e with
  | none => rfl
  | some v =>
    unfold mkEnviron get_environ_vars
    simp [List.filter, pyStartsWith_self_append, normalize_keys, dictSet, hek]

/-- The highest-precedence source among environment, command section and
global section that sets the key. -/
def sourceWinner (g c e : Option String) : Option String :=
  match e with
  | some w => some w
  | none => match c with | some w => some w | none => g

/-- The merged config dict of `update_defaults` on the one-key layout:
a single binding carrying the highest-precedence present source. -/
theorem config_winner (k : String) (g c e : Option String) :
    dictUpdate (dictUpdate (dictUpdate ([] : List (String × String))
        (match g with | some v => [(k, v)] | none => []))
        (match c with | some v => [(k, v)] | none => []))
        (match e with | some v => [(k, v)] | none => []) =
      (match sourceWinner g c e with
       | some w => [(k, w)] | none => []) := by
  cases g <;> cases c <;> cases e <;> simp [sourceWinner, dictUpdate, dictSet]

theorem specResolvedValue_no_cli (o : Opt) (b : List (String × Val)) (g c e : Option String) :
    specResolvedValue o b g c e none =
      match sourceWinner g c e with
      | some w => specConfigVal o w
      | none => postCheckVal o (dictGet b o.dest) := by
  cases e <;> cases c <;> cases g <;> rfl

/-- C1: for an option reachable under key `k` (the sole option of its
destination), with the `global` section, the command section and the
environment each setting the key (to a nonempty value) or omitting it
and the CLI either supplying a parsed value for the destination or not,
the resolved value follows the fixed precedence
CLI > environment > command section > global section > built-in default
(each config-sourced value passing through the source's coercion
stages). -/
theorem c1_precedence (p : Parser) (o : Opt) (l₁ l₂ : List Opt) (k a : String)
    (g c e : Option String) (cli : List (String × Val)) (vals : List (String × Val))
    (hko : get_option p k = some o)
    (hnk : normKey k = k)
    (hek : normKey (pyLower (pyReplace ("PIP_" ++ a) "PIP_" "")) = k)
    (hname : p.name ≠ "global")
    (hopts : p.options = l₁ ++ o :: l₂)
    (hl₁ : ∀ o' ∈ l₁, o'.dest ≠ o.dest) (hl₂ : ∀ o' ∈ l₂, o'.dest ≠ o.dest)
    (hg : ∀ v ∈ g, ¬ v = "") (hc : ∀ v ∈ c, ¬ v = "") (he : ∀ v ∈ e, ¬ v = "")
    (hcli : (cli.map Prod.fst).Nodup)
    (hok : parse_args_values p (mkSecs p.name k g c) (mkEnviron a e) cli = .ok vals) :
    dictGet vals o.dest = specResolvedValue o p.defaults g c e (dictGet cli o.dest) := by
  unfold parse_args_values at hok
  cases hdv : get_default_values p (mkSecs p.name k g c) (mkEnviron a e) with
  | error err => rw [hdv] at hok; cases hok
  | ok dvals =>
    rw [hdv] at hok
    dsimp only at hok
    cases hok
    rw [dictGet_dictUpdate dvals cli o.dest hcli]
    cases dictGet cli o.dest with
    | some v => rfl
    | none =>
      dsimp only
      rw [specResolvedValue_no_cli o p.defaults g c e]
      unfold get_default_values at hdv
      cases hud : update_defaults p (mkSecs p.name k g c) (mkEnviron a e) p.defaults with
      | error err => rw [hud] at hdv; cases hdv
      | ok d₁ =>
        rw [hud] at hdv
        dsimp only at hdv
        rw [hopts] at hdv
        have hfocus := postFold_get_focus l₁ l₂ o d₁ dvals hl₁ hl₂ hdv
        rw [hfocus]
        unfold update_defaults at hud
        rw [mkSecs_global, mkSecs_self p.name k g c hname,
          normalize_keys_single k g hnk, normalize_keys_single k c hnk,
          environ_config a e k hek, config_winner k g c e] at hud
        have hwne : ∀ w, sourceWinner g c e = some w → ¬ w = "" := by
          unfold sourceWinner
          cases e with
          | some v => intro w hw; cases hw; exact he v rfl
          | none =>
            cases c with
            | some v => intro w hw; cases hw; exact hc v rfl
            | none => intro w hw; exact hg w hw
        cases hW : sourceWinner g c e with
        | none =>
          rw [hW] at hud
          dsimp only at hud
          rw [List.foldlM_nil] at hud
          cases hud
          rfl
        | some w =>
          rw [hW] at hud
          dsimp only at hud
          rw [List.foldlM_cons] at hud
          cases hspec : specEntryVal o w with
          | none =>
            obtain ⟨err, herr⟩ := applyEntry_error_of_spec p p.defaults k w o hko
              (hwne w hW) hspec
            rw [herr] at hud
            dsimp only [Bind.bind, Except.bind] at hud
            cases hud
          | some v =>
            rw [applyEntry_ok_of_spec p p.defaults k w o v hko (hwne w hW) hspec] at hud
            dsimp only [Bind.bind, Except.bind] at hud
            rw [List.foldlM_nil] at hud
            cases hud
            rw [dictGet_dictSet_same]
            unfold specConfigVal
            dsimp only
            rw [hspec]

/-- Witness for C1 on a one-option parser (`--timeout`, untyped for
the witness, built-in default `15`): with global section `30`, command
section `45` and environment `60` and no CLI value, the resolved value
is the environment's `60`. -/
theorem c1_precedence_witness :
    dictGet [("timeout", Val.vstr "60")] "timeout" =
      specResolvedValue
        ⟨["--timeout", "--default-timeout"], "timeout", Action.store, none, some 1, none,
          some (Val.vint 15)⟩
        [("timeout", Val.vint 15)] (some "30") (some "45") (some "60") none :=
  c1_precedence
    ⟨"install",
      [⟨["--timeout", "--default-timeout"], "timeout", Action.store, none, some 1, none,
        some (Val.vint 15)⟩],
      [("timeout", Val.vint 15)]⟩
    ⟨["--timeout", "--default-timeout"], "timeout", Action.store, none, some 1, none,
      some (Val.vint 15)⟩
    [] [] "--timeout" "TIMEOUT" (some "30") (some "45") (some "60") []
    [("timeout", Val.vstr "60")]
    rfl rfl (by decide) (by decide) rfl (by simp) (by simp)
    (by intro v hv; cases hv; decide) (by intro v hv; cases hv; decide)
    (by intro v hv; cases hv; decide) (by decide) rfl

/-! ## Claims about log persistence -/

set_option maxRecDepth 4000 in
/-- C9 counterexample: persisting to an existing log file truncates it —
with prior content `"OLD"`, the stored file starts with the separator
line and contains no trace of `"OLD"` (the Done-phase store opens with
mode `'w'`), so "its prior content is preserved" fails as stated. -/
theorem c9_counterexample :
    dictGet (storeCompleteLog ⟨[("/logs/pip.log", "OLD")], ["/logs"]⟩ "/logs/pip.log"
        ["n1", "n2"] "pip" "T").1.files "/logs/pip.log" =
      some (sepLine ++ banner "pip" "T" ++ "n1\nn2") ∧
    "OLD".data.isPrefixOf (sepLine ++ banner "pip" "T" ++ "n1\nn2").data = false ∧
    ¬ List.IsInfix "OLD".data (sepLine ++ banner "pip" "T" ++ "n1\nn2").data := by
  refine ⟨by decide, by decide, by decide⟩

/-- C9 (amended): when persistence is flagged, the store reports the
path to the user first, creates the missing parent directory, and
writes the accumulated log with TRUNCATION semantics: any prior content
of the file is discarded, and exactly when the file pre-existed, a
separator line plus timestamp banner precedes the new content. -/
theorem c9_store_log (fs : FS) (log_fn : String) (logs : List String)
    (argv0 timestr : String) :
    (storeCompleteLog fs log_fn logs argv0 timestr).2.head? =
      some (.report ("Storing complete log in " ++ log_fn)) ∧
    (fsExistsDir fs (dirname log_fn) = false →
      (storeCompleteLog fs log_fn logs argv0 timestr).1.dirs.contains (dirname log_fn) = true) ∧
    dictGet (storeCompleteLog fs log_fn logs argv0 timestr).1.files log_fn =
      some ((if fsExistsFile fs log_fn then sepLine ++ banner argv0 timestr else "") ++
        String.intercalate "\n" logs) := by
  refine ⟨rfl, ?_, ?_⟩
  · intro hd
    unfold storeCompleteLog open_logfile
    simp only [hd, Bool.false_eq_true, if_false, applyAction]
    split <;> simp [applyAction]
  · unfold storeCompleteLog open_logfile
    cases hd : fsExistsDir fs (dirname log_fn) <;>
      cases hf : fsExistsFile fs log_fn <;>
        simp only [fsExistsFile, applyAction] at hf ⊢ <;>
          simp [hd, hf, dictGet_dictSet_same]

/-- Witness for C9 (amended) on a concrete filesystem whose log
directory is missing and whose log file does not yet exist. -/
theorem c9_store_log_witness :
    (storeCompleteLog ⟨[], []⟩ "/logs/pip.log" ["m"] "pip" "T").2.head? =
      some (.report ("Storing complete log in " ++ "/logs/pip.log")) ∧
    (storeCompleteLog ⟨[], []⟩ "/logs/pip.log" ["m"] "pip" "T").1.dirs.contains
      (dirname "/logs/pip.log") = true ∧
    dictGet (storeCompleteLog ⟨[], []⟩ "/logs/pip.log" ["m"] "pip" "T").1.files
      "/logs/pip.log" = some ((if fsExistsFile ⟨[], []⟩ "/logs/pip.log" then
        sepLine ++ banner "pip" "T" else "") ++ String.intercalate "\n" ["m"]) := by
  obtain ⟨h1, h2, h3⟩ := c9_store_log ⟨[], []⟩ "/logs/pip.log" ["m"] "pip" "T"
  exact ⟨h1, h2 (by decide), h3⟩

/-- A concrete global-scope `Values` object (all merged attributes
present, `log_file` and `timeout` truthy, two `-v` flags counted). -/
def exGlobalOpts : Values :=
  [("log", Val.vnone), ("proxy", .vstr ""), ("require_venv", .vint 0),
   ("log_explicit_levels", .vint 0), ("log_file", .vstr "f"), ("timeout", .vint 30),
   ("default_vcs", .vstr ""), ("skip_requirements_regex", .vstr ""), ("no_input", .vint 0),
   ("quiet", .vint 0), ("verbose", .vint 2)]

/-- A concrete command-scope `Values` object (truthy `log_file` and
`timeout` that differ from the global ones, one `-v` flag counted). -/
def exCommandOpts : Values :=
  [("log", Val.vnone), ("proxy", .vstr ""), ("require_venv", .vint 0),
   ("log_explicit_levels", .vint 0), ("log_file", .vstr "g"), ("timeout", .vint 60),
   ("default_vcs", .vstr ""), ("skip_requirements_regex", .vstr ""), ("no_input", .vint 0),
   ("quiet", .vint 0), ("verbose", .vint 1)]

/-- What `merge_options` produces on the two objects above. -/
def exMergedOpts : Values :=
  [("log", Val.vnone), ("proxy", .vstr ""), ("require_venv", .vint 0),
   ("log_explicit_levels", .vint 0), ("log_file", .vstr "f"), ("timeout", .vint 30),
   ("default_vcs", .vstr ""), ("skip_requirements_regex", .vstr ""), ("no_input", .vint 0),
   ("quiet", .vint 0), ("verbose", .vint 3)]

/-- C2 counterexample: with global `timeout` `30` and command `timeout`
`60`, both truthy, the merged `timeout` is the global `30`, not the
command `60`: `val = getattr(initial_options, attr) or
getattr(options, attr)` keeps the global value whenever it is truthy, the
reverse of the claimed direction. -/
theorem c2_counterexample :
    merge_options exGlobalOpts exCommandOpts = some exMergedOpts ∧
    dictGet exMergedOpts "timeout" = some (Val.vint 30) ∧
    dictGet exCommandOpts "timeout" = some (Val.vint 60) ∧
    truthy (Val.vint 60) = true ∧
    Val.vint 30 ≠ Val.vint 60 := by
  refine ⟨by decide, by decide, by decide, by decide, by decide⟩

/-- C2 (amended): for every attribute in the fixed carry-over set, the
merged value equals the GLOBAL-scope value, falling back to the
command-scope value only when the global-scope value is falsy. -/
theorem c2_carry_over (initial options merged : Values) (attr : String)
    (hattr : attr ∈ carryOverAttrs)
    (h : merge_options initial options = some merged) :
    ∃ vi, dictGet initial attr = some vi ∧
      dictGet merged attr = if truthy vi then some vi else dictGet options attr := by
  obtain ⟨opts₁, q, qi, q', v, vi0, v', hf, -, -, -, -, -, -, hm⟩ :=
    merge_options_inv initial options merged h
  have hq : attr ≠ "quiet" ∧ attr ≠ "verbose" := by
    fin_cases hattr <;> exact ⟨by decide, by decide⟩
  obtain ⟨vi, hvi, hr⟩ :=
    mergeFold_get_mem initial carryOverAttrs options opts₁ attr (by decide) hattr hf
  refine ⟨vi, hvi, ?_⟩
  subst hm
  rw [dictGet_dictSet_other _ _ _ _ (fun he => hq.2 he.symm),
    dictGet_dictSet_other _ _ _ _ (fun he => hq.1 he.symm), hr]

/-- Witness for C2 (amended) on the concrete objects: the truthy global
`log_file` `"f"` survives the merge. -/
theorem c2_carry_over_witness :
    dictGet exMergedOpts "log_file" = some (Val.vstr "f") := by
  obtain ⟨vi, hvi, hr⟩ :=
    c2_carry_over exGlobalOpts exCommandOpts exMergedOpts "log_file" (by decide) (by decide)
  have h2 : some vi = some (Val.vstr "f") :=
    hvi.symm.trans (by decide : dictGet exGlobalOpts "log_file" = some (Val.vstr "f"))
  rw [hr, Option.some_inj.mp h2]
  decide

/-- C3: the verbosity and quietness counters are additive across the
global and command scopes (the merged counter is the sum of the two
scopes' counters), and a `count`-style flag count is invariant under
reordering of the argument list. -/
theorem c3_additive_counters :
    (∀ (initial options merged : Values) (vi v qi q : Int),
      merge_options initial options = some merged →
      dictGet initial "verbose" = some (.vint vi) →
      dictGet options "verbose" = some (.vint v) →
      dictGet initial "quiet" = some (.vint qi) →
      dictGet options "quiet" = some (.vint q) →
      dictGet merged "verbose" = some (.vint (vi + v)) ∧
      dictGet merged "quiet" = some (.vint (qi + q))) ∧
    (∀ (args args' : List String), args.Perm args' →
      countFlag "-v" "--verbose" args = countFlag "-v" "--verbose" args' ∧
      countFlag "-q" "--quiet" args = countFlag "-q" "--quiet" args') := by
  constructor
  · intro initial options merged vi v qi q h hvi hv hqi hq
    obtain ⟨opts₁, q0, qi0, q', v0, vi0, v', hf, hgq, hgqi, hq', hgv, hgvi, hv', hm⟩ :=
      merge_options_inv initial options merged h
    have hqkeep : dictGet opts₁ "quiet" = dictGet options "quiet" :=
      mergeFold_get_notMem initial carryOverAttrs options opts₁ "quiet" (by decide) hf
    have hvkeep : dictGet opts₁ "verbose" = dictGet options "verbose" :=
      mergeFold_get_notMem initial carryOverAttrs options opts₁ "verbose" (by decide) hf
    have hq0 : q0 = Val.vint q := by
      have := (hgq.symm.trans (hqkeep.trans hq))
      exact Option.some_inj.mp this
    have hqi0 : qi0 = Val.vint qi := Option.some_inj.mp (hgqi.symm.trans hqi)
    have hv0 : v0 = Val.vint v := by
      have hge : dictGet (dictSet opts₁ "quiet" q') "verbose" = dictGet options "verbose" :=
        (dictGet_dictSet_other _ _ _ _ (by decide)).trans hvkeep
      exact Option.some_inj.mp (hgv.symm.trans (hge.trans hv))
    have hvi0 : vi0 = Val.vint vi := Option.some_inj.mp (hgvi.symm.trans hvi)
    subst hq0 hqi0 hv0 hvi0
    simp only [valAdd, Option.some_inj] at hq' hv'
    subst hm
    constructor
    · rw [dictGet_dictSet_same, ← hv', Int.add_comm v vi]
    · rw [dictGet_dictSet_other _ _ _ _ (by decide), dictGet_dictSet_same, ← hq',
        Int.add_comm q qi]
  · intro args args' hp
    exact ⟨(hp.filter _).length_eq, (hp.filter _).length_eq⟩

/-- Witness for C3: two global `-v` flags plus one command `-v` flag
yield merged verbosity 3, and the flag count ignores argument order. -/
theorem c3_additive_counters_witness :
    countFlag "-v" "--verbose" ["-v", "-v"] = 2 ∧
    countFlag "-v" "--verbose" ["-v"] = 1 ∧
    dictGet exMergedOpts "verbose" = some (Val.vint 3) ∧
    countFlag "-v" "--verbose" ["-v", "-x", "-v"] =
      countFlag "-v" "--verbose" ["-x", "-v", "-v"] := by
  refine ⟨by decide, by decide, ?_, ?_⟩
  · have h := (c3_additive_counters.1 exGlobalOpts exCommandOpts exMergedOpts 2 1 0 0
      (by decide) (by decide) (by decide) (by decide) (by decide)).1
    simpa using h
  · exact (c3_additive_counters.2 ["-v", "-x", "-v"] ["-x", "-v", "-v"] (by decide)).1

/-- Witness for C10 at version `1.2-r45` with no `svn` backend registered. -/
theorem c10_unbound_svn_location_witness :
    FrozenRequirement.from_dist ⟨fun _ => none, fun _ _ _ => none, fun _ => none⟩
        ⟨"pkg", "/site/pkg", "pkg-1.2-r45", ⟨"pkg==1.2-r45", [("==", "1.2-r45")]⟩⟩ [] false =
      .error .unboundLocal :=
  c10_unbound_svn_location ⟨fun _ => none, fun _ _ _ => none, fun _ => none⟩
    ⟨"pkg", "/site/pkg", "pkg-1.2-r45", ⟨"pkg==1.2-r45", [("==", "1.2-r45")]⟩⟩ [] false
    "1.2-r45" rfl rfl (Or.inl rfl) rfl

end Pip
